import Mathlib

/-!
Verification of the cross-tab communication layer of the Patient-portal
repository (src/lib/cross-tab.ts), as a shallow embedding in Lean 4.

Modelling conventions.

JavaScript values are embedded as follows: callback function references
become natural-number identifiers compared for identity, as the source
compares listeners with reference equality in its filter call; possibly
undefined values become Option; machine-time values from Date.now become
Int (timestamps); a stored localStorage string is abstracted by its JSON
parse outcome, since every use of a stored string in the source is a call
of JSON.parse on it: a well-formed text denotes the envelope-shaped value
it parses to, and any text on which JSON.parse throws is the single
constructor for malformed data.

Environment semantics that the source relies on (and that the claims are
about) are embedded where they act: a BroadcastChannel delivers a posted
message to every other bound channel object with the same name and never
to the posting object, and posting on a closed BroadcastChannel throws an
InvalidStateError; a localStorage write fires a storage event in every
other same-origin browsing context and never in the writing context, and
only when the stored value actually changed; removing an absent key fires
no event. These rules live in the world-level routing functions below.
-/

namespace CrossTab

/-- The message type of src/lib/cross-tab.ts lines 4-7. The TypeScript
declaration lists the fields type and optional payload; the payload of
type any is abstracted as an opaque serializable value. Because
JavaScript objects are open, a caller may attach further runtime
properties; the optional timestamp property (present in the message
schema of the specification) is carried here so that claims about it can
be stated. The source code never reads or writes this property. -/
structure MessageData where
  type : String
  payload : Option String := none
  timestamp : Option Int := none
  deriving DecidableEq, Repr

/-- The runtime capability environment probed by the constructor at
lines 21-33: window defined with a working BroadcastChannel, window
defined but the BroadcastChannel constructor throws (the catch branch at
line 27), window defined without BroadcastChannel, or no window at all
(server-side rendering). -/
inductive Env
  | browserWithBC
  | browserBCFails
  | browserNoBC
  | nonBrowser
  deriving DecidableEq, Repr

/-- Whether typeof window is not the string undefined. -/
def Env.windowDefined : Env → Bool
  | .nonBrowser => false
  | _ => true

/-- The shape of the JSON value a stored fallback text parses to: an
object with an optional message field and an optional numeric timestamp
field. A field that is absent, or not of the expected shape, is none. -/
structure Envelope where
  message : Option MessageData := none
  timestamp : Option Int := none
  deriving DecidableEq, Repr

/-- A localStorage value abstracted by its JSON parse outcome. -/
inductive StoredValue
  | wellFormed (e : Envelope)
  | malformed
  deriving DecidableEq, Repr

/-- The expression JSON.parse applied to newValue-or-default at line 42:
a null (or empty) newValue is replaced by the two-character empty-object
text, which parses to the empty envelope; a malformed text makes
JSON.parse throw, returned here as none and caught by the handler. -/
def jsParse : Option StoredValue → Option Envelope
  | none => some ⟨none, none⟩
  | some (.wellFormed e) => some e
  | some .malformed => none

/-- The instance state of class CrossTabCommunication (lines 9-14),
together with the two bits of environment state its behaviour depends
on: nativeBound is whether the nativeBroadcastChannel field is non-null,
nativeClosed is the closed flag of that native channel object, and
fallbackInstalled is whether setupLocalStorageFallback registered the
storage event handler. -/
structure Channel where
  env : Env
  channelName : String
  nativeBound : Bool
  nativeClosed : Bool
  fallbackInstalled : Bool
  listeners : List Nat
  localStorageKey : String
  lastProcessedTimestamp : Int
  deriving DecidableEq, Repr

/-- The constructor (lines 16-34): the key is the literal cross-tab-
prefix applied to the channel name; with a working BroadcastChannel the
instance binds the native strategy, otherwise in a browser it installs
the storage-event fallback, and outside a browser it binds nothing. -/
def mkChannel (channelName : String) (env : Env) : Channel where
  env := env
  channelName := channelName
  nativeBound := decide (env = Env.browserWithBC)
  nativeClosed := false
  fallbackInstalled :=
    decide (env = Env.browserBCFails) || decide (env = Env.browserNoBC)
  listeners := []
  localStorageKey := "cross-tab-" ++ channelName
  lastProcessedTimestamp := 0

/-- One listener call: which callback was invoked, and with which
argument (none models an undefined argument, possible in the fallback
path when the parsed envelope lacks a message field). -/
structure Invocation where
  listener : Nat
  data : Option MessageData
  deriving DecidableEq, Repr

/-- notifyListeners (lines 56-58): forEach over the listeners array in
index order, so invocations are produced in registration order. -/
def notifyListeners (c : Channel) (data : Option MessageData) : List Invocation :=
  c.listeners.map fun l => ⟨l, data⟩

/-- The storage-event handler installed by setupLocalStorageFallback
(lines 36-54), run on one storage event. If the handler was never
installed, or the event key differs from the instance key, nothing
happens. Otherwise the value is parsed; a parse failure is caught and
logged (line 48-50), changing nothing. A parsed envelope is processed
only when its timestamp field is a number strictly greater than the
last processed timestamp (the JavaScript comparison at line 44 is false
when the field is undefined); then the last processed timestamp becomes
that number and the listeners are notified with the message field. -/
def handleStorageEvent (c : Channel) (eventKey : String) (newValue : Option StoredValue) :
    Channel × List Invocation :=
  if c.fallbackInstalled = false then (c, [])
  else if eventKey ≠ c.localStorageKey then (c, [])
  else
    match jsParse newValue with
    | none => (c, [])
    | some data =>
      match data.timestamp with
      | none => (c, [])
      | some t =>
        if c.lastProcessedTimestamp < t then
          ({ c with lastProcessedTimestamp := t }, notifyListeners c data.message)
        else (c, [])

/-- The onmessage handler bound at lines 24-26: notifyListeners applied
to the delivered event data. -/
def handleNativeMessage (c : Channel) (data : MessageData) : List Invocation :=
  notifyListeners c (some data)

/-- The exception postMessage can raise: the InvalidStateError
DOMException thrown by the native BroadcastChannel postMessage method
when the channel object has been closed. -/
inductive PostError
  | invalidState
  deriving DecidableEq, Repr

/-- The outward effect of one postMessage call: a native broadcast of
the data, or a localStorage write of the serialized envelope under the
instance key together with a scheduled removal of that key after the
given delay in milliseconds, or nothing at all. -/
inductive Emit
  | native (data : MessageData)
  | storageWrite (key : String) (value : StoredValue) (removeDelayMs : Nat)
  | noop
  deriving DecidableEq, Repr

/-- postMessage (lines 60-76). With a non-null native channel the data
is posted on it as is; this throws when that native channel object is
closed. Otherwise, in a browser, the envelope holding the data and the
current time is serialized and written under the instance key, and a
removal of the key is scheduled 100 milliseconds later (lines 66-74).
Outside a browser nothing happens. The instance state is unchanged in
all cases, and the message value itself is never modified. -/
def postMessage (c : Channel) (data : MessageData) (now : Int) : Except PostError Emit :=
  if c.nativeBound then
    if c.nativeClosed then Except.error PostError.invalidState
    else Except.ok (Emit.native data)
  else if c.env.windowDefined then
    Except.ok (Emit.storageWrite c.localStorageKey
      (StoredValue.wellFormed ⟨some data, some now⟩) 100)
  else Except.ok Emit.noop

/-- onMessage (lines 78-83): Array push appends the callback at the end
of the listeners array. -/
def onMessage (c : Channel) (callback : Nat) : Channel :=
  { c with listeners := c.listeners ++ [callback] }

/-- The unsubscribe closure returned by onMessage (lines 80-82): filter
keeps exactly the listeners that are not reference-equal to the
callback. -/
def unsubscribe (c : Channel) (callback : Nat) : Channel :=
  { c with listeners := c.listeners.filter fun l => l ≠ callback }

/-- close (lines 85-90): closes the native channel object when bound
(setting its closed flag; the field itself is not cleared, so
nativeBound stays true) and empties the listeners array. -/
def close (c : Channel) : Channel :=
  { c with nativeClosed := c.nativeClosed || c.nativeBound, listeners := [] }

/-- getPatientChannel (lines 94-101) as a transition on the module-level
mutable singleton: when window is defined and the singleton is still
null, a channel named patient-updates is constructed and stored; the
(possibly updated) singleton is returned. The returned value equals the
new singleton state, so the function below returns just that. -/
def getPatientChannel (g : Option Channel) (env : Env) : Option Channel :=
  if env.windowDefined ∧ g = none then some (mkChannel "patient-updates" env) else g

/-!
World-level semantics: several browsing contexts, each holding one
channel instance, around one shared localStorage. The routing functions
encode the documented browser behaviour the source relies on; see the
header comment.
-/

/-- A collection of browsing contexts (context identifier and the
channel instance living in it) plus the shared localStorage contents,
as an association list from keys to stored values. -/
structure World where
  contexts : List (Nat × Channel)
  store : List (String × StoredValue)
  deriving DecidableEq, Repr

/-- localStorage getItem. -/
def storeGet (st : List (String × StoredValue)) (k : String) : Option StoredValue :=
  match st.find? (fun p => p.1 = k) with
  | some p => some p.2
  | none => none

/-- localStorage setItem: replace any binding of the key. -/
def storeSet (st : List (String × StoredValue)) (k : String) (v : StoredValue) :
    List (String × StoredValue) :=
  (k, v) :: st.filter fun p => p.1 ≠ k

/-- localStorage removeItem. -/
def storeRemove (st : List (String × StoredValue)) (k : String) :
    List (String × StoredValue) :=
  st.filter fun p => p.1 ≠ k

/-- Routing of one storage mutation: a storage event with the given key
and new value fires in every browsing context except the one that
performed the write (a storage event never fires in the writing
context), running each receiving instance's handler. Returns the
updated contexts and the listener invocations, tagged with the context
they happened in. -/
def fireStorage (ctxs : List (Nat × Channel)) (senderId : Nat) (key : String)
    (newValue : Option StoredValue) : List (Nat × Channel) × List (Nat × Invocation) :=
  match ctxs with
  | [] => ([], [])
  | (i, c) :: rest =>
    let r := fireStorage rest senderId key newValue
    if i = senderId then ((i, c) :: r.1, r.2)
    else
      let h := handleStorageEvent c key newValue
      ((i, h.1) :: r.1, (h.2.map fun inv => (i, inv)) ++ r.2)

/-- Routing of one native broadcast: the posted data is delivered to
every other context whose instance holds an open native channel bound
to the same name, and never to the posting context. Receiver state is
unchanged by delivery. -/
def fireNative (ctxs : List (Nat × Channel)) (senderId : Nat) (name : String)
    (data : MessageData) : List (Nat × Invocation) :=
  match ctxs with
  | [] => []
  | (i, c) :: rest =>
    let r := fireNative rest senderId name data
    if i ≠ senderId ∧ c.nativeBound = true ∧ c.nativeClosed = false ∧ c.channelName = name
    then ((handleNativeMessage c data).map fun inv => (i, inv)) ++ r
    else r

/-- One publish observed across the whole world: the sender instance
runs postMessage (propagating its possible exception), and the emitted
effect is routed. A localStorage write fires storage events only when
the stored value actually changed, per the storage specification. The
scheduled removal is a separate later step, worldRemoveKey below. -/
def worldPublish (w : World) (senderId : Nat) (data : MessageData) (now : Int) :
    Except PostError (World × List (Nat × Invocation)) :=
  match w.contexts.find? (fun p => p.1 = senderId) with
  | none => Except.ok (w, [])
  | some p =>
    match postMessage p.2 data now with
    | Except.error e => Except.error e
    | Except.ok Emit.noop => Except.ok (w, [])
    | Except.ok (Emit.native d) =>
      Except.ok (w, fireNative w.contexts senderId p.2.channelName d)
    | Except.ok (Emit.storageWrite key v _delay) =>
      if storeGet w.store key = some v then Except.ok (w, [])
      else
        let f := fireStorage w.contexts senderId key (some v)
        Except.ok (⟨f.1, storeSet w.store key v⟩, f.2)

/-- The delayed removeItem scheduled by the fallback publish: when the
key is present it is removed and a storage event with a null new value
fires in every other context; removing an absent key fires no event. -/
def worldRemoveKey (w : World) (senderId : Nat) (key : String) :
    World × List (Nat × Invocation) :=
  match storeGet w.store key with
  | none => (w, [])
  | some _ =>
    let f := fireStorage w.contexts senderId key none
    (⟨f.1, storeRemove w.store key⟩, f.2)

/-!
Concrete fixtures used by witnesses and counterexamples: the message the
application actually publishes (src/app/patients/page.tsx line 121), a
fallback-strategy channel for the patient-updates name, and a two-tab
world in which tab 0 publishes and tab 1 listens with callback 7.
-/

/-- The message the application publishes. -/
def mData : MessageData := ⟨"PATIENT_UPDATED", none, none⟩

/-- The notification key for the patient-updates channel. -/
def patientKey : String := "cross-tab-patient-updates"

/-- A fallback-strategy instance of the patient-updates channel. -/
def fallbackCh : Channel := mkChannel "patient-updates" Env.browserNoBC

/-- A native-strategy instance of the patient-updates channel. -/
def nativeCh : Channel := mkChannel "patient-updates" Env.browserWithBC

/-- Tab 1's instance after registering callback 7. -/
def recvCh : Channel := onMessage fallbackCh 7

/-- Two fallback tabs: tab 0 will publish, tab 1 listens. -/
def twoTabWorld : World := ⟨[(0, fallbackCh), (1, recvCh)], []⟩

/-- The receiving instance after processing a message with timestamp t. -/
def recvAfter (t : Int) : Channel := { recvCh with lastProcessedTimestamp := t }

/-- The stored envelope for message m at time t. -/
def envAt (m : MessageData) (t : Int) : StoredValue :=
  StoredValue.wellFormed ⟨some m, some t⟩

/-- The two-tab world after tab 0 published m at time t (before the
scheduled removal has run). -/
def worldAfterPub (m : MessageData) (t : Int) : World :=
  ⟨[(0, fallbackCh), (1, recvAfter t)], [(patientKey, envAt m t)]⟩

/-- The two-tab world after the scheduled removal following a publish
processed at time t: the key is gone, the receiver remembers t. -/
def worldBetween (t : Int) : World :=
  ⟨[(0, fallbackCh), (1, recvAfter t)], []⟩

/-! Helper lemmas about the receive path. -/

/-- A storage event with a null new value changes nothing and invokes
nobody: the default text parses to the empty envelope, whose undefined
timestamp fails the strictly-greater comparison. -/
theorem handleStorageEvent_null (c : Channel) (key : String) :
    handleStorageEvent c key none = (c, []) := by
  unfold handleStorageEvent
  split
  · rfl
  · split <;> rfl

/-- A storage event whose value fails to parse changes nothing and
invokes nobody: the exception is caught inside the handler. -/
theorem handleStorageEvent_malformed (c : Channel) (key : String) :
    handleStorageEvent c key (some StoredValue.malformed) = (c, []) := by
  unfold handleStorageEvent
  split
  · rfl
  · split <;> rfl

/-- A storage event whose envelope has no numeric timestamp field
changes nothing and invokes nobody. -/
theorem handleStorageEvent_noStamp (c : Channel) (key : String) (msg : Option MessageData) :
    handleStorageEvent c key (some (StoredValue.wellFormed ⟨msg, none⟩)) = (c, []) := by
  unfold handleStorageEvent
  split
  · rfl
  · split <;> rfl

/-- A fresh envelope (timestamp strictly above the last processed one)
on the instance key updates the last processed timestamp and notifies
every listener with the message field. -/
theorem handleStorageEvent_fresh (c : Channel) (hf : c.fallbackInstalled = true)
    (msg : Option MessageData) (t : Int) (h : c.lastProcessedTimestamp < t) :
    handleStorageEvent c c.localStorageKey
      (some (StoredValue.wellFormed ⟨msg, some t⟩)) =
      ({ c with lastProcessedTimestamp := t }, notifyListeners c msg) := by
  simp [handleStorageEvent, jsParse, hf, h]

/-- A stale envelope (timestamp not strictly above the last processed
one) changes nothing and invokes nobody. -/
theorem handleStorageEvent_stale (c : Channel) (hf : c.fallbackInstalled = true)
    (msg : Option MessageData) (t : Int) (h : ¬ c.lastProcessedTimestamp < t) :
    handleStorageEvent c c.localStorageKey
      (some (StoredValue.wellFormed ⟨msg, some t⟩)) = (c, []) := by
  simp [handleStorageEvent, jsParse, hf, h]

/-- The last processed timestamp never decreases under any storage
event. -/
theorem handleStorageEvent_mono (c : Channel) (key : String) (v : Option StoredValue) :
    c.lastProcessedTimestamp ≤ (handleStorageEvent c key v).1.lastProcessedTimestamp := by
  unfold handleStorageEvent
  repeat' split
  all_goals simp_all
  all_goals omega

/-- Every invocation produced by the storage handler belongs to a
currently registered listener. -/
theorem handleStorageEvent_inv_mem (c : Channel) (key : String) (v : Option StoredValue) :
    ∀ inv ∈ (handleStorageEvent c key v).2, inv.listener ∈ c.listeners := by
  intro inv hinv
  unfold handleStorageEvent at hinv
  repeat' split at hinv
  all_goals
    first
      | cases hinv
      | (simp only [notifyListeners, List.mem_map] at hinv
         obtain ⟨l, hl, rfl⟩ := hinv
         exact hl)

/-- Every invocation produced by the storage handler on an envelope with
message field m carries m itself, unmodified. -/
theorem handleStorageEvent_data (c : Channel) (key : String) (m : MessageData)
    (ts : Option Int) :
    ∀ inv ∈ (handleStorageEvent c key (some (StoredValue.wellFormed ⟨some m, ts⟩))).2,
      inv.data = some m := by
  intro inv hinv
  unfold handleStorageEvent at hinv
  split at hinv
  · cases hinv
  split at hinv
  · cases hinv
  simp only [jsParse] at hinv
  cases ts with
  | none => simp at hinv
  | some t =>
    by_cases hlt : c.lastProcessedTimestamp < t
    · simp only [if_pos hlt, notifyListeners, List.mem_map] at hinv
      obtain ⟨l, hl, rfl⟩ := hinv
      rfl
    · simp [if_neg hlt] at hinv

/-! Helper lemmas about the world-level routing. -/

/-- Storage events from a write are never routed to the writing
context. -/
theorem fireStorage_not_sender (ctxs : List (Nat × Channel)) (s : Nat) (key : String)
    (v : Option StoredValue) : ∀ e ∈ (fireStorage ctxs s key v).2, e.1 ≠ s := by
  induction ctxs with
  | nil => intro e he; cases he
  | cons p rest ih =>
    intro e he
    obtain ⟨i, c⟩ := p
    simp only [fireStorage] at he
    by_cases hi : i = s
    · rw [if_pos hi] at he
      exact ih e he
    · rw [if_neg hi] at he
      simp only [List.mem_append, List.mem_map] at he
      rcases he with ⟨inv, _, rfl⟩ | he
      · simpa using hi
      · exact ih e he

/-- The routing of a key-removal event (null new value) produces no
invocation anywhere. -/
theorem fireStorage_null_snd (ctxs : List (Nat × Channel)) (s : Nat) (key : String) :
    (fireStorage ctxs s key none).2 = [] := by
  induction ctxs with
  | nil => rfl
  | cons p rest ih =>
    obtain ⟨i, c⟩ := p
    by_cases hi : i = s <;>
      simp [fireStorage, hi, ih, handleStorageEvent_null]

/-- Every invocation routed from a write of an envelope with message m
carries m itself. -/
theorem fireStorage_data (ctxs : List (Nat × Channel)) (s : Nat) (key : String)
    (m : MessageData) (ts : Option Int) :
    ∀ e ∈ (fireStorage ctxs s key (some (StoredValue.wellFormed ⟨some m, ts⟩))).2,
      e.2.data = some m := by
  induction ctxs with
  | nil => intro e he; cases he
  | cons p rest ih =>
    intro e he
    obtain ⟨i, c⟩ := p
    simp only [fireStorage] at he
    by_cases hi : i = s
    · rw [if_pos hi] at he
      exact ih e he
    · rw [if_neg hi] at he
      simp only [List.mem_append, List.mem_map] at he
      rcases he with ⟨inv, hinv, rfl⟩ | he
      · exact handleStorageEvent_data c key m ts inv hinv
      · exact ih e he

/-- A native broadcast is never delivered to the posting context. -/
theorem fireNative_not_sender (ctxs : List (Nat × Channel)) (s : Nat) (name : String)
    (d : MessageData) : ∀ e ∈ fireNative ctxs s name d, e.1 ≠ s := by
  induction ctxs with
  | nil => intro e he; cases he
  | cons p rest ih =>
    intro e he
    obtain ⟨i, c⟩ := p
    simp only [fireNative] at he
    split at he
    · next hc =>
      simp only [List.mem_append, List.mem_map] at he
      rcases he with ⟨inv, _, rfl⟩ | he
      · simpa using hc.1
      · exact ih e he
    · exact ih e he

/-- Every invocation delivered by a native broadcast of d carries d
itself. -/
theorem fireNative_data (ctxs : List (Nat × Channel)) (s : Nat) (name : String)
    (d : MessageData) : ∀ e ∈ fireNative ctxs s name d, e.2.data = some d := by
  induction ctxs with
  | nil => intro e he; cases he
  | cons p rest ih =>
    intro e he
    obtain ⟨i, c⟩ := p
    simp only [fireNative] at he
    split at he
    · simp only [List.mem_append, List.mem_map] at he
      rcases he with ⟨inv, hinv, rfl⟩ | he
      · simp only [handleNativeMessage, notifyListeners, List.mem_map] at hinv
        obtain ⟨l, _, rfl⟩ := hinv
        rfl
      · exact ih e he
    · exact ih e he

/-- After removing a key, a lookup of that key finds nothing. -/
theorem storeGet_remove (st : List (String × StoredValue)) (k : String) :
    storeGet (storeRemove st k) k = none := by
  unfold storeGet storeRemove
  cases hfind : (st.filter fun p => p.1 ≠ k).find? (fun p => p.1 = k) with
  | none => rfl
  | some p =>
    have h1 : p.1 = k := by simpa using List.find?_some hfind
    have h2 := List.mem_filter.mp (List.mem_of_find?_eq_some hfind)
    exact absurd h1 (by simpa using h2.2)

/-- The scheduled removal never produces a listener invocation: the
resulting storage event has a null new value, which every handler
discards. -/
theorem worldRemoveKey_snd (w : World) (s : Nat) (key : String) :
    (worldRemoveKey w s key).2 = [] := by
  unfold worldRemoveKey
  cases storeGet w.store key with
  | none => rfl
  | some v => simpa using fireStorage_null_snd w.contexts s key

/-- No invocation produced by a world-level publish happens in the
publishing context. -/
theorem worldPublish_not_sender (w : World) (s : Nat) (data : MessageData) (now : Int)
    (w2 : World) (evs : List (Nat × Invocation))
    (h : worldPublish w s data now = Except.ok (w2, evs)) : ∀ e ∈ evs, e.1 ≠ s := by
  unfold worldPublish at h
  cases hfind : w.contexts.find? (fun p => p.1 = s) with
  | none =>
    rw [hfind] at h
    simp only [Except.ok.injEq, Prod.mk.injEq] at h
    intro e he
    rw [← h.2] at he
    cases he
  | some p =>
    rw [hfind] at h
    dsimp only at h
    cases hpost : postMessage p.2 data now with
    | error e => rw [hpost] at h; cases h
    | ok em =>
      rw [hpost] at h
      cases em with
      | noop =>
        simp only [Except.ok.injEq, Prod.mk.injEq] at h
        intro e he
        rw [← h.2] at he
        cases he
      | native d =>
        simp only [Except.ok.injEq, Prod.mk.injEq] at h
        intro e he
        rw [← h.2] at he
        exact fireNative_not_sender _ _ _ _ e he
      | storageWrite key v delay =>
        dsimp only at h
        by_cases hget : storeGet w.store key = some v
        · rw [if_pos hget] at h
          simp only [Except.ok.injEq, Prod.mk.injEq] at h
          intro e he
          rw [← h.2] at he
          cases he
        · rw [if_neg hget] at h
          simp only [Except.ok.injEq, Prod.mk.injEq] at h
          intro e he
          rw [← h.2] at he
          exact fireStorage_not_sender _ _ _ _ e he

/-- Every invocation produced by a world-level publish of data carries
data itself, unmodified. -/
theorem worldPublish_data (w : World) (s : Nat) (data : MessageData) (now : Int)
    (w2 : World) (evs : List (Nat × Invocation))
    (h : worldPublish w s data now = Except.ok (w2, evs)) :
    ∀ e ∈ evs, e.2.data = some data := by
  unfold worldPublish at h
  cases hfind : w.contexts.find? (fun p => p.1 = s) with
  | none =>
    rw [hfind] at h
    simp only [Except.ok.injEq, Prod.mk.injEq] at h
    intro e he
    rw [← h.2] at he
    cases he
  | some p =>
    rw [hfind] at h
    dsimp only at h
    cases hpost : postMessage p.2 data now with
    | error e => rw [hpost] at h; cases h
    | ok em =>
      rw [hpost] at h
      cases em with
      | noop =>
        simp only [Except.ok.injEq, Prod.mk.injEq] at h
        intro e he
        rw [← h.2] at he
        cases he
      | native d =>
        have hd : d = data := by
          unfold postMessage at hpost
          split at hpost
          · split at hpost
            · cases hpost
            · simpa using hpost.symm
          · split at hpost <;> cases hpost
        subst hd
        simp only [Except.ok.injEq, Prod.mk.injEq] at h
        intro e he
        rw [← h.2] at he
        exact fireNative_data _ _ _ _ e he
      | storageWrite key v delay =>
        have hv : v = StoredValue.wellFormed ⟨some data, some now⟩ := by
          unfold postMessage at hpost
          split at hpost
          · split at hpost <;> cases hpost
          · split at hpost
            · simpa using (by injection hpost with h0; injection h0; simp_all)
            · cases hpost
        subst hv
        dsimp only at h
        by_cases hget : storeGet w.store key =
            some (StoredValue.wellFormed ⟨some data, some now⟩)
        · rw [if_pos hget] at h
          simp only [Except.ok.injEq, Prod.mk.injEq] at h
          intro e he
          rw [← h.2] at he
          cases he
        · rw [if_neg hget] at h
          simp only [Except.ok.injEq, Prod.mk.injEq] at h
          intro e he
          rw [← h.2] at he
          exact fireStorage_data _ _ _ _ _ e he

/-- Unfolding of a world-level publish through the fallback strategy:
when the sender is found, emits a storage write, and the written value
differs from the stored one, the events of that write are routed. -/
theorem worldPublish_fallback (w : World) (s : Nat) (c : Channel) (data : MessageData)
    (now : Int) (k : String) (v : StoredValue) (d : Nat)
    (hfind : w.contexts.find? (fun p => p.1 = s) = some (s, c))
    (hpost : postMessage c data now = Except.ok (Emit.storageWrite k v d))
    (hget : ¬ storeGet w.store k = some v) :
    worldPublish w s data now =
      Except.ok (⟨(fireStorage w.contexts s k (some v)).1, storeSet w.store k v⟩,
        (fireStorage w.contexts s k (some v)).2) := by
  unfold worldPublish
  rw [hfind]
  dsimp only
  rw [hpost]
  dsimp only
  rw [if_neg hget]

/-- Array push appends: registering callbacks one after another
concatenates them, in order, after the existing listeners. -/
theorem foldl_onMessage_listeners (c : Channel) (fs : List Nat) :
    (List.foldl onMessage c fs).listeners = c.listeners ++ fs := by
  induction fs generalizing c with
  | nil => simp
  | cons a fs ih => simp [onMessage, ih]

/-! The claims. -/

/-- Claim C1: in the localStorage-fallback receive path, a storage event
on the channel key whose envelope timestamp is not strictly greater than
the last processed timestamp invokes no listener and changes nothing;
one whose timestamp is strictly greater invokes all listeners with the
message and updates the last processed timestamp to it; and the last
processed timestamp never decreases under any storage event. -/
theorem fallback_timestamp_gate (c : Channel) (hf : c.fallbackInstalled = true)
    (msg : Option MessageData) (t : Int) :
    (t ≤ c.lastProcessedTimestamp →
      handleStorageEvent c c.localStorageKey
        (some (StoredValue.wellFormed ⟨msg, some t⟩)) = (c, [])) ∧
    (c.lastProcessedTimestamp < t →
      handleStorageEvent c c.localStorageKey
        (some (StoredValue.wellFormed ⟨msg, some t⟩)) =
        ({ c with lastProcessedTimestamp := t }, notifyListeners c msg)) ∧
    (∀ key v, c.lastProcessedTimestamp ≤
      (handleStorageEvent c key v).1.lastProcessedTimestamp) := by
  refine ⟨?_, ?_, fun key v => handleStorageEvent_mono c key v⟩
  · intro h
    exact handleStorageEvent_stale c hf msg t (not_lt.mpr h)
  · intro h
    exact handleStorageEvent_fresh c hf msg t h

/-- Witness for claim C1 at a concrete receiver with listener 7, last
processed timestamp 0 and an envelope stamped 5. -/
theorem fallback_timestamp_gate_witness :
    handleStorageEvent recvCh recvCh.localStorageKey
      (some (StoredValue.wellFormed ⟨some mData, some 5⟩)) =
      ({ recvCh with lastProcessedTimestamp := 5 }, notifyListeners recvCh (some mData)) :=
  (fallback_timestamp_gate recvCh rfl (some mData) 5).2.1 (by decide)

/-- Claim C2: a publish from one context never invokes a listener of
that same context, under either delivery strategy; neither do the
storage events of the scheduled key removal. -/
theorem publish_no_self_echo (w : World) (s : Nat) (data : MessageData) (now : Int)
    (w2 : World) (evs : List (Nat × Invocation))
    (h : worldPublish w s data now = Except.ok (w2, evs)) :
    (∀ e ∈ evs, e.1 ≠ s) ∧
    (∀ key, ∀ e ∈ (worldRemoveKey w2 s key).2, e.1 ≠ s) := by
  refine ⟨worldPublish_not_sender w s data now w2 evs h, ?_⟩
  intro key e he
  rw [worldRemoveKey_snd] at he
  cases he

/-- Witness for claim C2: in the concrete two-tab publish, the one
delivered invocation happens in tab 1, not in the publishing tab 0. -/
theorem publish_no_self_echo_witness :
    (((1 : Nat), (⟨7, some mData⟩ : Invocation)) : Nat × Invocation).1 ≠ 0 :=
  (publish_no_self_echo twoTabWorld 0 mData 5 (worldAfterPub mData 5)
    [(1, ⟨7, some mData⟩)] rfl).1 (1, ⟨7, some mData⟩) (by simp)

/-- Claim C3, the code defect it exposes: close does not clear the
nativeBroadcastChannel field, so a postMessage after close still takes
the native branch and posts on the closed native channel object, which
throws InvalidStateError; the specification requires that close followed
by publish must not throw. This theorem evaluates the code at the
failing input. -/
theorem close_then_post_throws :
    postMessage (close nativeCh) mData 1000 = Except.error PostError.invalidState := rfl

/-- Claim C5: a storage event on the channel key whose value does not
parse as JSON is dropped silently: no exception escapes the handler (the
handler is a total function into unchanged state), no listener is
invoked, and the last processed timestamp is unchanged. -/
theorem malformed_envelope_dropped (c : Channel) ( _hf : c.fallbackInstalled = true) :
    handleStorageEvent c c.localStorageKey (some StoredValue.malformed) = (c, []) :=
  handleStorageEvent_malformed c c.localStorageKey

/-- Witness for claim C5 at the concrete receiver. -/
theorem malformed_envelope_dropped_witness :
    handleStorageEvent recvCh recvCh.localStorageKey (some StoredValue.malformed) =
      (recvCh, []) :=
  malformed_envelope_dropped recvCh rfl

/-- Claim C7: after running the unsubscribe closure returned for a
callback, that callback is invoked by no later delivery (neither through
notifyListeners nor through the storage receive path); and listeners are
invoked in registration order: registering a list of callbacks appends
them in order and a delivery maps over them in that same order. -/
theorem unsubscribe_and_listener_order (c : Channel) (f : Nat) (fs : List Nat)
    (data : Option MessageData) (key : String) (v : Option StoredValue) :
    (∀ inv ∈ notifyListeners (unsubscribe c f) data, inv.listener ≠ f) ∧
    (∀ inv ∈ (handleStorageEvent (unsubscribe c f) key v).2, inv.listener ≠ f) ∧
    (List.foldl onMessage c fs).listeners = c.listeners ++ fs ∧
    notifyListeners (List.foldl onMessage c fs) data =
      (c.listeners ++ fs).map fun l => ⟨l, data⟩ := by
  refine ⟨?_, ?_, foldl_onMessage_listeners c fs, ?_⟩
  · intro inv hinv
    simp only [notifyListeners, unsubscribe, List.mem_map, List.mem_filter] at hinv
    obtain ⟨l, ⟨_, hlf⟩, rfl⟩ := hinv
    simpa using hlf
  · intro inv hinv
    have hmem := handleStorageEvent_inv_mem (unsubscribe c f) key v inv hinv
    simp only [unsubscribe, List.mem_filter] at hmem
    simpa using hmem.2
  · rw [notifyListeners, foldl_onMessage_listeners]

/-- Witness for claim C7: registering callbacks 3 then 4 on the fresh
fallback channel yields the listener list in registration order. -/
theorem unsubscribe_and_listener_order_witness :
    (List.foldl onMessage fallbackCh [3, 4]).listeners = fallbackCh.listeners ++ [3, 4] :=
  (unsubscribe_and_listener_order fallbackCh 0 [3, 4] none patientKey none).2.2.1

/-- Claim C9: a storage event on the channel key with an absent new
value (the removal event of the publisher cleanup) or with an envelope
lacking a numeric timestamp invokes no listener and changes nothing,
without error; world-wide, the scheduled removal produces no invocation
in any context. -/
theorem removal_event_discarded (c : Channel) ( _hf : c.fallbackInstalled = true)
    (msg : Option MessageData) :
    handleStorageEvent c c.localStorageKey none = (c, []) ∧
    handleStorageEvent c c.localStorageKey
      (some (StoredValue.wellFormed ⟨msg, none⟩)) = (c, []) ∧
    (∀ w s key, (worldRemoveKey w s key).2 = []) :=
  ⟨handleStorageEvent_null c c.localStorageKey,
   handleStorageEvent_noStamp c c.localStorageKey msg,
   fun w s key => worldRemoveKey_snd w s key⟩

/-- Witness for claim C9 at the concrete receiver. -/
theorem removal_event_discarded_witness :
    handleStorageEvent recvCh recvCh.localStorageKey none = (recvCh, []) :=
  (removal_event_discarded recvCh rfl none).1

/-- Claim C10: in a browser the first getPatientChannel call constructs
the patient-updates channel and stores it in the singleton slot, later
calls return that same instance (the transition is idempotent), and
outside a browser the call returns null and constructs nothing. -/
theorem getPatientChannel_idempotent (env : Env) (he : env.windowDefined = true)
    (g : Option Channel) :
    getPatientChannel none env = some (mkChannel "patient-updates" env) ∧
    getPatientChannel (getPatientChannel g env) env = getPatientChannel g env ∧
    getPatientChannel none Env.nonBrowser = none := by
  refine ⟨by simp [getPatientChannel, he], ?_, rfl⟩
  unfold getPatientChannel
  by_cases hg : g = none
  · subst hg
    simp [he]
  · simp [hg]

/-- Witness for claim C10 in the fallback browser environment. -/
theorem getPatientChannel_idempotent_witness :
    getPatientChannel none Env.browserNoBC =
      some (mkChannel "patient-updates" Env.browserNoBC) :=
  (getPatientChannel_idempotent Env.browserNoBC rfl none).1

/-- Claim C4, refuted: publishing the timestampless application message
at time 5 in the two-tab fallback world delivers to the remote listener
the message exactly as passed, still carrying no timestamp: postMessage
stamps only the wrapping envelope, never the message, so the received
message timestamp is not the publish time. -/
theorem post_no_stamp_cex :
    worldPublish twoTabWorld 0 mData 5 =
      Except.ok (worldAfterPub mData 5, [(1, ⟨7, some mData⟩)]) ∧
    mData.timestamp ≠ some 5 :=
  ⟨rfl, by decide⟩

/-- Claim C4 as amended: postMessage never modifies or stamps the
message itself. Under the open native strategy the message is emitted
exactly as passed; under the fallback strategy the current time is
stamped on the wrapping envelope only, and every message a remote
listener receives from a publish is the published message itself,
unmodified (so it carries a timestamp only if the publisher set one). -/
theorem post_passthrough (data : MessageData) (now : Int) :
    (∀ c : Channel, c.nativeBound = true → c.nativeClosed = false →
      postMessage c data now = Except.ok (Emit.native data)) ∧
    (∀ c : Channel, c.nativeBound = false → c.env.windowDefined = true →
      postMessage c data now = Except.ok (Emit.storageWrite c.localStorageKey
        (StoredValue.wellFormed ⟨some data, some now⟩) 100)) ∧
    (∀ w s w2 evs, worldPublish w s data now = Except.ok (w2, evs) →
      ∀ e ∈ evs, e.2.data = some data) := by
  refine ⟨?_, ?_, fun w s w2 evs h => worldPublish_data w s data now w2 evs h⟩
  · intro c h1 h2
    simp [postMessage, h1, h2]
  · intro c h1 h2
    simp [postMessage, h1, h2]

/-- Witness for the amended claim C4: the open native channel emits the
application message unchanged. -/
theorem post_passthrough_witness :
    postMessage nativeCh mData 5 = Except.ok (Emit.native mData) :=
  (post_passthrough mData 5).1 nativeCh rfl rfl

/-- Claim C6: two consecutive publishes with the identical payload each
produce their own observable delivery in the other context. In the
fallback world: the first publish delivers, the scheduled removal
delivers nothing, and the second publish of the very same message
delivers again (given strictly increasing clock readings, the only
suppression there is). Under the open native strategy both publishes
emit their own broadcast. Moreover the fallback suppression decision
depends only on the envelope timestamp, never on the payload: two
envelopes differing only in their message field drive the receiving
instance to the same state and invoke the same listeners. -/
theorem identical_payload_two_deliveries (m : MessageData) (t1 t2 : Int)
    (h1 : 0 < t1) (h2 : t1 < t2) :
    (worldPublish twoTabWorld 0 m t1 =
      Except.ok (worldAfterPub m t1, [(1, ⟨7, some m⟩)]) ∧
     worldRemoveKey (worldAfterPub m t1) 0 patientKey = (worldBetween t1, []) ∧
     worldPublish (worldBetween t1) 0 m t2 =
      Except.ok (worldAfterPub m t2, [(1, ⟨7, some m⟩)])) ∧
    (∀ c : Channel, c.nativeBound = true → c.nativeClosed = false →
      postMessage c m t1 = Except.ok (Emit.native m) ∧
      postMessage c m t2 = Except.ok (Emit.native m)) ∧
    (∀ (c : Channel) (mA mB : Option MessageData) (ts : Option Int),
      (handleStorageEvent c c.localStorageKey
          (some (StoredValue.wellFormed ⟨mA, ts⟩))).1 =
        (handleStorageEvent c c.localStorageKey
          (some (StoredValue.wellFormed ⟨mB, ts⟩))).1 ∧
      (handleStorageEvent c c.localStorageKey
          (some (StoredValue.wellFormed ⟨mA, ts⟩))).2.map Invocation.listener =
        (handleStorageEvent c c.localStorageKey
          (some (StoredValue.wellFormed ⟨mB, ts⟩))).2.map Invocation.listener) := by
  refine ⟨⟨?_, ?_, ?_⟩, ?_, ?_⟩
  · have e1 : handleStorageEvent recvCh patientKey (some (envAt m t1)) =
        (recvAfter t1, [⟨7, some m⟩]) :=
      handleStorageEvent_fresh recvCh rfl (some m) t1 h1
    have fs1 : fireStorage twoTabWorld.contexts 0 patientKey (some (envAt m t1)) =
        ([(0, fallbackCh), (1, recvAfter t1)], [(1, ⟨7, some m⟩)]) := by
      show fireStorage [(0, fallbackCh), (1, recvCh)] 0 patientKey (some (envAt m t1)) = _
      simp [fireStorage, e1]
    rw [worldPublish_fallback twoTabWorld 0 fallbackCh m t1 patientKey (envAt m t1) 100
      rfl rfl (by simp [storeGet, twoTabWorld]), fs1]
    rfl
  · rfl
  · have e3 : handleStorageEvent (recvAfter t1) patientKey (some (envAt m t2)) =
        (recvAfter t2, [⟨7, some m⟩]) :=
      handleStorageEvent_fresh (recvAfter t1) rfl (some m) t2 h2
    have fs3 : fireStorage (worldBetween t1).contexts 0 patientKey (some (envAt m t2)) =
        ([(0, fallbackCh), (1, recvAfter t2)], [(1, ⟨7, some m⟩)]) := by
      show fireStorage [(0, fallbackCh), (1, recvAfter t1)] 0 patientKey
        (some (envAt m t2)) = _
      simp [fireStorage, e3]
    rw [worldPublish_fallback (worldBetween t1) 0 fallbackCh m t2 patientKey (envAt m t2)
      100 rfl rfl (by simp [storeGet, worldBetween]), fs3]
    rfl
  · intro c hb hc
    constructor <;> simp [postMessage, hb, hc]
  · intro c mA mB ts
    by_cases hf : c.fallbackInstalled = true
    · cases ts with
      | none =>
        rw [handleStorageEvent_noStamp, handleStorageEvent_noStamp]
        exact ⟨rfl, rfl⟩
      | some t =>
        by_cases hlt : c.lastProcessedTimestamp < t
        · rw [handleStorageEvent_fresh c hf mA t hlt, handleStorageEvent_fresh c hf mB t hlt]
          refine ⟨rfl, ?_⟩
          simp [notifyListeners, List.map_map, Function.comp]
        · rw [handleStorageEvent_stale c hf mA t hlt, handleStorageEvent_stale c hf mB t hlt]
          exact ⟨rfl, rfl⟩
    · have hf2 : c.fallbackInstalled = false := by
        cases hfb : c.fallbackInstalled
        · rfl
        · exact absurd hfb hf
      unfold handleStorageEvent
      simp [hf2]

/-- Witness for claim C6 at clock readings 1 and 2. -/
theorem identical_payload_two_deliveries_witness :
    worldPublish twoTabWorld 0 mData 1 =
      Except.ok (worldAfterPub mData 1, [(1, ⟨7, some mData⟩)]) :=
  (identical_payload_two_deliveries mData 1 2 (by decide) (by decide)).1.1

/-- Claim C8: a fallback publish on a channel named n writes, under
exactly the key formed by the cross-tab- prefix and n, the JSON envelope
holding the message and a numeric timestamp, with the key removal
scheduled 100 milliseconds later; and running that removal leaves the
key absent from the store. -/
theorem fallback_write_shape (n : String) (data : MessageData) (now : Int) :
    (mkChannel n Env.browserNoBC).localStorageKey = "cross-tab-" ++ n ∧
    postMessage (mkChannel n Env.browserNoBC) data now =
      Except.ok (Emit.storageWrite ("cross-tab-" ++ n)
        (StoredValue.wellFormed ⟨some data, some now⟩) 100) ∧
    (∀ w s, storeGet ((worldRemoveKey w s ("cross-tab-" ++ n)).1.store)
      ("cross-tab-" ++ n) = none) := by
  refine ⟨rfl, rfl, ?_⟩
  intro w s
  unfold worldRemoveKey
  cases hg : storeGet w.store ("cross-tab-" ++ n) with
  | none => simpa using hg
  | some v => simpa using storeGet_remove w.store ("cross-tab-" ++ n)

end CrossTab
